import Mathlib

/-!
Verification of the MedBook reservation engine.

The definitions below are a shallow embedding of the SQL core in
`backend/supabase/001_schema.sql` and `backend/supabase/002_functions.sql`:
the `slots` and `bookings` tables, and the four PL/pgSQL functions
`book_slot`, `confirm_booking`, `cancel_booking` and
`expire_pending_bookings`.  Each PL/pgSQL function runs as one atomic
transaction (and an exception caught by its `EXCEPTION` block rolls back
every change the block made), so each is embedded as a total function from
database states to (result, database state); an interleaving of concurrent
transactions is a sequence of these atomic steps.  Timestamps are seconds
as `Nat`; the 2-minute confirmation window is 120.
-/

namespace Medbook

/-- Status enum from `001_schema.sql` (`booking_status`). -/
inductive BookingStatus
  | PENDING
  | CONFIRMED
  | FAILED
  | CANCELLED
deriving DecidableEq, Repr

/-- A row of the `slots` table (fields relevant to the reservation engine). -/
structure Slot where
  id : Nat
  doctorId : Nat
  startTime : Nat
  endTime : Nat
  isAvailable : Bool
deriving DecidableEq, Repr

/-- A row of the `bookings` table (fields relevant to the reservation engine). -/
structure Booking where
  id : Nat
  userId : Nat
  slotId : Nat
  doctorId : Nat
  status : BookingStatus
  expiresAt : Option Nat
  confirmedAt : Option Nat
  cancelledAt : Option Nat
deriving DecidableEq, Repr

/-- The database state: the `doctors` table (ids only — `book_slot` joins
`slots` to `doctors`), the `slots` table, the `bookings` table, and a
fresh-id counter standing for `uuid_generate_v4` for booking primary keys. -/
structure DB where
  doctors : List Nat
  slots : List Slot
  bookings : List Booking
  nextBookingId : Nat
deriving DecidableEq, Repr

/-- Error tags returned by `book_slot`. -/
inductive BookErr
  | SLOT_UNAVAILABLE
  | SLOT_LOCKED
  | SLOT_ALREADY_BOOKED
deriving DecidableEq, Repr

/-- Result of `book_slot`: the created booking on success, an error tag
otherwise. -/
inductive BookOutcome
  | ok (b : Booking)
  | err (e : BookErr)
deriving DecidableEq, Repr

def isBookOk : BookOutcome → Bool
  | .ok _ => true
  | .err _ => false

/-- Error tags returned by `confirm_booking`. -/
inductive ConfirmErr
  | BOOKING_NOT_FOUND
  | INVALID_STATUS
  | BOOKING_EXPIRED
deriving DecidableEq, Repr

inductive ConfirmOutcome
  | ok
  | err (e : ConfirmErr)
deriving DecidableEq, Repr

def isConfirmOk : ConfirmOutcome → Bool
  | .ok => true
  | .err _ => false

/-- Error tags returned by `cancel_booking`. -/
inductive CancelErr
  | BOOKING_NOT_FOUND
  | INVALID_STATUS
deriving DecidableEq, Repr

inductive CancelOutcome
  | ok
  | err (e : CancelErr)
deriving DecidableEq, Repr

/-- `UPDATE slots SET is_available = v WHERE id = slotId`. -/
def setSlotAvail (slotId : Nat) (v : Bool) (slots : List Slot) : List Slot :=
  slots.map (fun s => if s.id == slotId then { s with isAvailable := v } else s)

/-- Row effect of `UPDATE bookings SET status = 'FAILED' WHERE id = bookingId`. -/
def failUpd (bookingId : Nat) (x : Booking) : Booking :=
  if x.id == bookingId then { x with status := .FAILED } else x

/-- Row effect of `UPDATE bookings SET status = 'CONFIRMED', confirmed_at =
NOW(), expires_at = NULL WHERE id = bookingId`. -/
def confirmUpd (bookingId now : Nat) (x : Booking) : Booking :=
  if x.id == bookingId then
    { x with status := .CONFIRMED, confirmedAt := some now, expiresAt := none }
  else x

/-- Row effect of `UPDATE bookings SET status = 'CANCELLED', cancelled_at =
NOW() WHERE id = bookingId`. -/
def cancelUpd (bookingId now : Nat) (x : Booking) : Booking :=
  if x.id == bookingId then
    { x with status := .CANCELLED, cancelledAt := some now }
  else x

/-- The booking row inserted by `book_slot`: status PENDING, `expires_at =
NOW() + INTERVAL '2 minutes'`. -/
def newBooking (db : DB) (userId slotId doctorId now : Nat) : Booking :=
  { id := db.nextBookingId
    userId := userId
    slotId := slotId
    doctorId := doctorId
    status := .PENDING
    expiresAt := some (now + 120)
    confirmedAt := none
    cancelledAt := none }

/-- `book_slot(p_user_id, p_slot_id)` from `002_functions.sql`.

`SELECT … FROM slots s JOIN doctors d ON s.doctor_id = d.id WHERE s.id =
p_slot_id AND s.is_available = true FOR UPDATE OF s NOWAIT`: the row lookup
is the `find?`; `NOT FOUND` yields `SLOT_UNAVAILABLE`.  The `INSERT INTO
bookings` raises `unique_violation` when another booking row already has
this `slot_id` — the `bookings` table carries `CONSTRAINT
unique_active_booking UNIQUE (slot_id)`, a plain unique constraint over all
rows regardless of status — and the `EXCEPTION WHEN unique_violation`
handler rolls the transaction back and returns `SLOT_ALREADY_BOOKED`.
Otherwise a PENDING booking with `expires_at = NOW() + INTERVAL '2
minutes'` is inserted and the slot is flipped to unavailable, all in the
same transaction.  `lock_not_available` (`SLOT_LOCKED`) cannot arise in
this sequential model of atomic transactions, but the tag is kept. -/
def book_slot (userId slotId now : Nat) (db : DB) : BookOutcome × DB :=
  match db.slots.find? (fun s =>
      s.id == slotId && s.isAvailable && db.doctors.contains s.doctorId) with
  | none => (.err .SLOT_UNAVAILABLE, db)
  | some s =>
    if db.bookings.any (fun b => b.slotId == slotId) then
      (.err .SLOT_ALREADY_BOOKED, db)
    else
      (.ok (newBooking db userId slotId s.doctorId now),
        { db with
            slots := setSlotAvail slotId false db.slots
            bookings := newBooking db userId slotId s.doctorId now :: db.bookings
            nextBookingId := db.nextBookingId + 1 })

/-- `confirm_booking(p_user_id, p_booking_id)` from `002_functions.sql`.

Looks the booking up by id and owner (`WHERE id = … AND user_id = … FOR
UPDATE`); `NOT FOUND` yields `BOOKING_NOT_FOUND`; a non-PENDING status
yields `INVALID_STATUS`.  The expiry test is `IF v_booking.expires_at <
NOW()` — strict, and a SQL NULL `expires_at` makes the comparison NULL
(falsy), so the `none` case falls through to confirmation.  The expired
branch sets only `status = 'FAILED'` on the booking (it does not clear
`expires_at`) and releases the slot.  The success branch sets status
CONFIRMED, `confirmed_at = NOW()` and `expires_at = NULL`. -/
def confirm_booking (userId bookingId now : Nat) (db : DB) : ConfirmOutcome × DB :=
  match db.bookings.find? (fun b => b.id == bookingId && b.userId == userId) with
  | none => (.err .BOOKING_NOT_FOUND, db)
  | some b =>
    if b.status ≠ BookingStatus.PENDING then
      (.err .INVALID_STATUS, db)
    else
      match b.expiresAt with
      | some e =>
        if e < now then
          (.err .BOOKING_EXPIRED,
            { db with
                bookings := db.bookings.map (failUpd bookingId)
                slots := setSlotAvail b.slotId true db.slots })
        else
          (.ok, { db with bookings := db.bookings.map (confirmUpd bookingId now) })
      | none =>
        (.ok, { db with bookings := db.bookings.map (confirmUpd bookingId now) })

/-- `cancel_booking(p_user_id, p_booking_id)` from `002_functions.sql`.

Same owner-scoped lookup as `confirm_booking`.  Only PENDING or CONFIRMED
bookings can be cancelled (`INVALID_STATUS` otherwise).  On success the
booking gets status CANCELLED and `cancelled_at = NOW()` (`expires_at` is
not touched), and the slot is released in the same transaction. -/
def cancel_booking (userId bookingId now : Nat) (db : DB) : CancelOutcome × DB :=
  match db.bookings.find? (fun b => b.id == bookingId && b.userId == userId) with
  | none => (.err .BOOKING_NOT_FOUND, db)
  | some b =>
    if b.status ≠ BookingStatus.PENDING ∧ b.status ≠ BookingStatus.CONFIRMED then
      (.err .INVALID_STATUS, db)
    else
      (.ok,
        { db with
            bookings := db.bookings.map (cancelUpd bookingId now)
            slots := setSlotAvail b.slotId true db.slots })

/-- The sweep condition: `status = 'PENDING' AND expires_at < NOW()`
(a NULL `expires_at` compares falsy). -/
def isExpiredPending (now : Nat) (b : Booking) : Bool :=
  b.status == .PENDING &&
    (match b.expiresAt with
     | some e => decide (e < now)
     | none => false)

/-- `expire_pending_bookings()` from `002_functions.sql`.

One statement: a CTE updates every PENDING booking with `expires_at <
NOW()` to FAILED (`expires_at` is not cleared), returning the affected
`slot_id`s, and the outer `UPDATE slots SET is_available = true WHERE id IN
(SELECT slot_id FROM expired)` releases those slots.  `GET DIAGNOSTICS …
ROW_COUNT` reads the row count of that outer slots update, which is the
returned integer. -/
def sweepUpd (now : Nat) (b : Booking) : Booking :=
  if isExpiredPending now b then { b with status := .FAILED } else b

/-- `slot_id`s returned by the `expired` CTE. -/
def expiredSlotIds (now : Nat) (db : DB) : List Nat :=
  (db.bookings.filter (isExpiredPending now)).map (fun b => b.slotId)

def expire_pending_bookings (now : Nat) (db : DB) : Nat × DB :=
  ((db.slots.filter (fun s => (expiredSlotIds now db).contains s.id)).length,
    { db with
        bookings := db.bookings.map (sweepUpd now)
        slots := db.slots.map (fun s =>
          if (expiredSlotIds now db).contains s.id then { s with isAvailable := true } else s) })

/-- One atomic transaction against the store: one of the four core
operations, with the wall-clock time `NOW()` observed by that transaction. -/
inductive Op
  | reserve (userId slotId now : Nat)
  | confirm (userId bookingId now : Nat)
  | cancel (userId bookingId now : Nat)
  | sweep (now : Nat)
deriving DecidableEq, Repr

/-- State effect of one transaction. -/
def applyOp (op : Op) (db : DB) : DB :=
  match op with
  | .reserve u s t => (book_slot u s t db).2
  | .confirm u b t => (confirm_booking u b t db).2
  | .cancel u b t => (cancel_booking u b t db).2
  | .sweep t => (expire_pending_bookings t db).2

/-- A serialized execution: the transactions commit one after another. -/
def runOps (ops : List Op) (db : DB) : DB :=
  ops.foldl (fun d o => applyOp o d) db

/-- An active reservation in the sense of the data model: status PENDING or
CONFIRMED. -/
def isActive (b : Booking) : Bool :=
  b.status == .PENDING || b.status == .CONFIRMED

/-- Some booking on slot `sid` is active. -/
def hasActiveOn (bs : List Booking) (sid : Nat) : Prop :=
  ∃ b ∈ bs, b.slotId = sid ∧ isActive b = true

instance (bs : List Booking) (sid : Nat) : Decidable (hasActiveOn bs sid) := by
  unfold hasActiveOn; infer_instance

/-- The availability invariant: a slot is `is_available = true` iff no
reservation on it is PENDING or CONFIRMED. -/
def availIff (db : DB) : Prop :=
  ∀ s ∈ db.slots, (s.isAvailable = true ↔ ¬ hasActiveOn db.bookings s.id)

instance (db : DB) : Decidable (availIff db) := by
  unfold availIff; infer_instance

/-- Well-formed database states.  Besides the availability invariant this
records what the schema itself enforces: primary-key uniqueness of slot and
booking ids, the `unique_active_booking UNIQUE (slot_id)` constraint on
`bookings` (at most one booking row per slot, whatever its status), the
`slot_id` foreign key, and freshness of the booking-id counter. -/
def WF (db : DB) : Prop :=
  (db.slots.map (fun s => s.id)).Nodup ∧
  (db.bookings.map (fun b => b.id)).Nodup ∧
  (db.bookings.map (fun b => b.slotId)).Nodup ∧
  (∀ b ∈ db.bookings, b.id < db.nextBookingId) ∧
  (∀ b ∈ db.bookings, ∃ s ∈ db.slots, s.id = b.slotId) ∧
  availIff db

instance (db : DB) : Decidable (WF db) := by
  unfold WF; infer_instance

/-- The row-lock query of `book_slot`. -/
def slotQuery (sid : Nat) (db : DB) : Option Slot :=
  db.slots.find? (fun s => s.id == sid && s.isAvailable && db.doctors.contains s.doctorId)

/-- The owner-scoped booking lookup shared by `confirm_booking` and
`cancel_booking`. -/
def bookingQuery (u bid : Nat) (db : DB) : Option Booking :=
  db.bookings.find? (fun b => b.id == bid && b.userId == u)

/-- No CONFIRMED reservation carries an `expires_at` value. -/
def noConfirmedExpiry (db : DB) : Prop :=
  ∀ b ∈ db.bookings, b.status = BookingStatus.CONFIRMED → b.expiresAt = none

instance (db : DB) : Decidable (noConfirmedExpiry db) := by
  unfold noConfirmedExpiry; infer_instance

/-- A small concrete store: one doctor (id 1) and one available slot (id 1),
no bookings.  Users 10 (A) and 20 (B) appear in the scenarios. -/
def exDB : DB :=
  { doctors := [1]
    slots := [{ id := 1, doctorId := 1, startTime := 1000, endTime := 2000,
                isAvailable := true }]
    bookings := []
    nextBookingId := 0 }

/-! ### Helper lemmas -/

lemma contains_true_iff (l : List Nat) (a : Nat) : l.contains a = true ↔ a ∈ l := by
  simp

lemma map_proj_eq {α β : Type} (f : α → α) (g : α → β) (l : List α)
    (h : ∀ a, g (f a) = g a) : (l.map f).map g = l.map g := by
  rw [List.map_map]
  exact List.map_congr_left (fun a _ => h a)

lemma failUpd_id (bid : Nat) (x : Booking) : (failUpd bid x).id = x.id := by
  unfold failUpd; split <;> rfl

lemma failUpd_slotId (bid : Nat) (x : Booking) : (failUpd bid x).slotId = x.slotId := by
  unfold failUpd; split <;> rfl

lemma failUpd_of_ne (bid : Nat) (x : Booking) (h : x.id ≠ bid) : failUpd bid x = x := by
  unfold failUpd
  simp [h]

lemma confirmUpd_id (bid now : Nat) (x : Booking) : (confirmUpd bid now x).id = x.id := by
  unfold confirmUpd; split <;> rfl

lemma confirmUpd_slotId (bid now : Nat) (x : Booking) :
    (confirmUpd bid now x).slotId = x.slotId := by
  unfold confirmUpd; split <;> rfl

lemma confirmUpd_of_ne (bid now : Nat) (x : Booking) (h : x.id ≠ bid) :
    confirmUpd bid now x = x := by
  unfold confirmUpd
  simp [h]

lemma cancelUpd_id (bid now : Nat) (x : Booking) : (cancelUpd bid now x).id = x.id := by
  unfold cancelUpd; split <;> rfl

lemma cancelUpd_slotId (bid now : Nat) (x : Booking) :
    (cancelUpd bid now x).slotId = x.slotId := by
  unfold cancelUpd; split <;> rfl

lemma cancelUpd_of_ne (bid now : Nat) (x : Booking) (h : x.id ≠ bid) :
    cancelUpd bid now x = x := by
  unfold cancelUpd
  simp [h]

lemma sweepUpd_id (now : Nat) (x : Booking) : (sweepUpd now x).id = x.id := by
  unfold sweepUpd; split <;> rfl

lemma sweepUpd_slotId (now : Nat) (x : Booking) : (sweepUpd now x).slotId = x.slotId := by
  unfold sweepUpd; split <;> rfl

lemma setSlotAvail_ids (sid : Nat) (v : Bool) (l : List Slot) :
    (setSlotAvail sid v l).map (fun t => t.id) = l.map (fun t => t.id) := by
  unfold setSlotAvail
  exact map_proj_eq _ _ _ (fun s => by split <;> rfl)

lemma setSlotAvail_exists (sid : Nat) (v : Bool) (l : List Slot) (n : Nat)
    (h : ∃ t ∈ l, t.id = n) : ∃ t ∈ setSlotAvail sid v l, t.id = n := by
  obtain ⟨t, ht, rfl⟩ := h
  refine ⟨if t.id == sid then { t with isAvailable := v } else t,
    List.mem_map.mpr ⟨t, ht, rfl⟩, ?_⟩
  split <;> rfl

lemma isActive_iff (b : Booking) :
    isActive b = true ↔ (b.status = .PENDING ∨ b.status = .CONFIRMED) := by
  unfold isActive
  cases hs : b.status <;> simp [hs]

lemma hasActiveOn_cons (b : Booking) (bs : List Booking) (sid : Nat) :
    hasActiveOn (b :: bs) sid ↔
      (b.slotId = sid ∧ isActive b = true) ∨ hasActiveOn bs sid := by
  unfold hasActiveOn
  constructor
  · rintro ⟨x, hx, hp⟩
    rcases List.mem_cons.mp hx with rfl | hx'
    · exact Or.inl hp
    · exact Or.inr ⟨x, hx', hp⟩
  · rintro (hp | ⟨x, hx, hp⟩)
    · exact ⟨b, List.mem_cons_self _ _, hp⟩
    · exact ⟨x, List.mem_cons_of_mem _ hx, hp⟩

/-! ### Branch shapes of the four operations -/

lemma book_slot_eq (u sid now : Nat) (db : DB) :
    book_slot u sid now db =
      match slotQuery sid db with
      | none => (.err .SLOT_UNAVAILABLE, db)
      | some s =>
        if db.bookings.any (fun b => b.slotId == sid) then
          (.err .SLOT_ALREADY_BOOKED, db)
        else
          (.ok (newBooking db u sid s.doctorId now),
            { db with
                slots := setSlotAvail sid false db.slots
                bookings := newBooking db u sid s.doctorId now :: db.bookings
                nextBookingId := db.nextBookingId + 1 }) := rfl

lemma book_slot_unavailable (u sid now : Nat) (db : DB)
    (h : slotQuery sid db = none) :
    book_slot u sid now db = (.err .SLOT_UNAVAILABLE, db) := by
  rw [book_slot_eq, h]

lemma book_slot_conflict (u sid now : Nat) (db : DB) (s : Slot)
    (h : slotQuery sid db = some s)
    (ha : db.bookings.any (fun b => b.slotId == sid) = true) :
    book_slot u sid now db = (.err .SLOT_ALREADY_BOOKED, db) := by
  rw [book_slot_eq, h]
  simp [ha]

lemma book_slot_ok (u sid now : Nat) (db : DB) (s : Slot)
    (h : slotQuery sid db = some s)
    (ha : db.bookings.any (fun b => b.slotId == sid) = false) :
    book_slot u sid now db =
      (.ok (newBooking db u sid s.doctorId now),
        { db with
            slots := setSlotAvail sid false db.slots
            bookings := newBooking db u sid s.doctorId now :: db.bookings
            nextBookingId := db.nextBookingId + 1 }) := by
  rw [book_slot_eq, h]
  simp [ha]

lemma confirm_eq (u bid now : Nat) (db : DB) :
    confirm_booking u bid now db =
      match bookingQuery u bid db with
      | none => (.err .BOOKING_NOT_FOUND, db)
      | some b =>
        if b.status ≠ BookingStatus.PENDING then
          (.err .INVALID_STATUS, db)
        else
          match b.expiresAt with
          | some e =>
            if e < now then
              (.err .BOOKING_EXPIRED,
                { db with
                    bookings := db.bookings.map (failUpd bid)
                    slots := setSlotAvail b.slotId true db.slots })
            else
              (.ok, { db with bookings := db.bookings.map (confirmUpd bid now) })
          | none =>
            (.ok, { db with bookings := db.bookings.map (confirmUpd bid now) }) := rfl

lemma confirm_not_found (u bid now : Nat) (db : DB)
    (h : bookingQuery u bid db = none) :
    confirm_booking u bid now db = (.err .BOOKING_NOT_FOUND, db) := by
  rw [confirm_eq, h]

lemma confirm_invalid (u bid now : Nat) (db : DB) (b : Booking)
    (h : bookingQuery u bid db = some b) (hs : b.status ≠ BookingStatus.PENDING) :
    confirm_booking u bid now db = (.err .INVALID_STATUS, db) := by
  rw [confirm_eq, h]
  simp [hs]

lemma confirm_expired (u bid now : Nat) (db : DB) (b : Booking) (e : Nat)
    (h : bookingQuery u bid db = some b) (hs : b.status = BookingStatus.PENDING)
    (he : b.expiresAt = some e) (hlt : e < now) :
    confirm_booking u bid now db =
      (.err .BOOKING_EXPIRED,
        { db with
            bookings := db.bookings.map (failUpd bid)
            slots := setSlotAvail b.slotId true db.slots }) := by
  rw [confirm_eq, h]
  simp [hs, he, hlt]

lemma confirm_ok_some (u bid now : Nat) (db : DB) (b : Booking) (e : Nat)
    (h : bookingQuery u bid db = some b) (hs : b.status = BookingStatus.PENDING)
    (he : b.expiresAt = some e) (hge : ¬ e < now) :
    confirm_booking u bid now db =
      (.ok, { db with bookings := db.bookings.map (confirmUpd bid now) }) := by
  rw [confirm_eq, h]
  simp [hs, he, hge]

lemma confirm_ok_none (u bid now : Nat) (db : DB) (b : Booking)
    (h : bookingQuery u bid db = some b) (hs : b.status = BookingStatus.PENDING)
    (he : b.expiresAt = none) :
    confirm_booking u bid now db =
      (.ok, { db with bookings := db.bookings.map (confirmUpd bid now) }) := by
  rw [confirm_eq, h]
  simp [hs, he]

lemma cancel_eq (u bid now : Nat) (db : DB) :
    cancel_booking u bid now db =
      match bookingQuery u bid db with
      | none => (.err .BOOKING_NOT_FOUND, db)
      | some b =>
        if b.status ≠ BookingStatus.PENDING ∧ b.status ≠ BookingStatus.CONFIRMED then
          (.err .INVALID_STATUS, db)
        else
          (.ok,
            { db with
                bookings := db.bookings.map (cancelUpd bid now)
                slots := setSlotAvail b.slotId true db.slots }) := rfl

lemma cancel_not_found (u bid now : Nat) (db : DB)
    (h : bookingQuery u bid db = none) :
    cancel_booking u bid now db = (.err .BOOKING_NOT_FOUND, db) := by
  rw [cancel_eq, h]

lemma cancel_invalid (u bid now : Nat) (db : DB) (b : Booking)
    (h : bookingQuery u bid db = some b)
    (hs : b.status ≠ BookingStatus.PENDING ∧ b.status ≠ BookingStatus.CONFIRMED) :
    cancel_booking u bid now db = (.err .INVALID_STATUS, db) := by
  rw [cancel_eq, h]
  simp [hs.1, hs.2]

lemma cancel_ok (u bid now : Nat) (db : DB) (b : Booking)
    (h : bookingQuery u bid db = some b)
    (hs : b.status = BookingStatus.PENDING ∨ b.status = BookingStatus.CONFIRMED) :
    cancel_booking u bid now db =
      (.ok,
        { db with
            bookings := db.bookings.map (cancelUpd bid now)
            slots := setSlotAvail b.slotId true db.slots }) := by
  rw [cancel_eq, h]
  rcases hs with hs | hs <;> simp [hs]

lemma bookingQuery_found (u bid : Nat) (db : DB) (b : Booking)
    (h : bookingQuery u bid db = some b) :
    b ∈ db.bookings ∧ b.id = bid ∧ b.userId = u := by
  refine ⟨List.mem_of_find?_eq_some h, ?_⟩
  have hp := List.find?_some h
  simp only [Bool.and_eq_true, beq_iff_eq] at hp
  exact hp

lemma slotQuery_found (sid : Nat) (db : DB) (s : Slot)
    (h : slotQuery sid db = some s) :
    s ∈ db.slots ∧ s.id = sid ∧ s.isAvailable = true := by
  refine ⟨List.mem_of_find?_eq_some h, ?_⟩
  have hp := List.find?_some h
  simp only [Bool.and_eq_true, beq_iff_eq] at hp
  exact ⟨hp.1.1, hp.1.2⟩

/-! ### Availability-invariant transfer lemmas -/

/-- Deactivating the unique booking `b` of its slot and releasing that slot
preserves the availability invariant.  `f` is the row update: it fixes ids
and slot ids, leaves rows with a different id alone, and turns `b`'s row
inactive. -/
lemma availIff_release (db : DB) (b : Booking) (f : Booking → Booking)
    (hb1 : (db.bookings.map (fun x => x.id)).Nodup)
    (hb2 : (db.bookings.map (fun x => x.slotId)).Nodup)
    (hav : availIff db) (hb : b ∈ db.bookings)
    (hne : ∀ x, x.id ≠ b.id → f x = x)
    (hfb : ∀ x, x.id = b.id → isActive (f x) = false) :
    availIff { db with
                 bookings := db.bookings.map f
                 slots := setSlotAvail b.slotId true db.slots } := by
  intro t' ht'
  rcases List.mem_map.mp ht' with ⟨t, ht, rfl⟩
  by_cases h0 : t.id = b.slotId
  · have hnoact : ¬ hasActiveOn (db.bookings.map f) t.id := by
      rintro ⟨x', hx', hxs, hxa⟩
      rcases List.mem_map.mp hx' with ⟨x, hx, rfl⟩
      by_cases hxb : x.id = b.id
      · rw [hfb x hxb] at hxa
        exact Bool.false_ne_true hxa
      · rw [hne x hxb] at hxs hxa
        have hxslot : x.slotId = b.slotId := by rw [hxs, h0]
        have : x = b := List.inj_on_of_nodup_map hb2 hx hb hxslot
        exact hxb (congrArg Booking.id this)
    have hnoact' : ¬ hasActiveOn (db.bookings.map f) b.slotId := h0 ▸ hnoact
    simp [h0, hnoact']
  · rw [if_neg (by simp [h0])]
    have htrans : hasActiveOn (db.bookings.map f) t.id ↔ hasActiveOn db.bookings t.id := by
      constructor
      · rintro ⟨x', hx', hxs, hxa⟩
        rcases List.mem_map.mp hx' with ⟨x, hx, rfl⟩
        by_cases hxb : x.id = b.id
        · rw [hfb x hxb] at hxa
          exact absurd hxa Bool.false_ne_true
        · rw [hne x hxb] at hxs hxa
          exact ⟨x, hx, hxs, hxa⟩
      · rintro ⟨x, hx, hxs, hxa⟩
        by_cases hxb : x.id = b.id
        · exfalso
          have hxeq : x = b := List.inj_on_of_nodup_map hb1 hx hb hxb
          rw [hxeq] at hxs
          exact h0 hxs.symm
        · exact ⟨f x, List.mem_map.mpr ⟨x, hx, rfl⟩, by rw [hne x hxb]; exact ⟨hxs, hxa⟩⟩
    rw [htrans]
    exact hav t ht

/-- A row update that moves bookings between the two active statuses (or
leaves rows alone) preserves the availability invariant: slot ids and
activity are unchanged row by row. -/
lemma availIff_statusSwap (db : DB) (f : Booking → Booking)
    (hsl : ∀ x ∈ db.bookings, (f x).slotId = x.slotId)
    (hact : ∀ x ∈ db.bookings, isActive (f x) = isActive x)
    (hav : availIff db) :
    availIff { db with bookings := db.bookings.map f } := by
  intro t ht
  have htrans : hasActiveOn (db.bookings.map f) t.id ↔ hasActiveOn db.bookings t.id := by
    constructor
    · rintro ⟨x', hx', hxs, hxa⟩
      rcases List.mem_map.mp hx' with ⟨x, hx, rfl⟩
      rw [hsl x hx] at hxs
      rw [hact x hx] at hxa
      exact ⟨x, hx, hxs, hxa⟩
    · rintro ⟨x, hx, hxs, hxa⟩
      exact ⟨f x, List.mem_map.mpr ⟨x, hx, rfl⟩, by rw [hsl x hx]; exact hxs,
        by rw [hact x hx]; exact hxa⟩
  rw [htrans]
  exact hav t ht

/-! ### Preservation of well-formedness -/

lemma wf_book_slot (u sid now : Nat) (db : DB) (hwf : WF db) :
    WF (book_slot u sid now db).2 := by
  obtain ⟨hs1, hb1, hb2, hfr, hfk, hav⟩ := hwf
  cases hq : slotQuery sid db with
  | none =>
    rw [book_slot_unavailable u sid now db hq]
    exact ⟨hs1, hb1, hb2, hfr, hfk, hav⟩
  | some s =>
    cases hany : db.bookings.any (fun b => b.slotId == sid) with
    | true =>
      rw [book_slot_conflict u sid now db s hq hany]
      exact ⟨hs1, hb1, hb2, hfr, hfk, hav⟩
    | false =>
      rw [book_slot_ok u sid now db s hq hany]
      obtain ⟨hsmem, hsid, hsav⟩ := slotQuery_found sid db s hq
      have hnone : ∀ b ∈ db.bookings, b.slotId ≠ sid := by
        intro b hb hbs
        have hco : db.bookings.any (fun b => b.slotId == sid) = true :=
          List.any_eq_true.mpr ⟨b, hb, by simp [hbs]⟩
        rw [hany] at hco
        exact Bool.false_ne_true hco
      refine ⟨?_, ?_, ?_, ?_, ?_, ?_⟩
      · show ((setSlotAvail sid false db.slots).map (fun t => t.id)).Nodup
        rw [setSlotAvail_ids]
        exact hs1
      · show ((newBooking db u sid s.doctorId now :: db.bookings).map (fun x => x.id)).Nodup
        rw [List.map_cons]
        refine List.nodup_cons.mpr ⟨?_, hb1⟩
        intro hmem
        rcases List.mem_map.mp hmem with ⟨x, hx, hxid⟩
        have hlt := hfr x hx
        have hxid' : x.id = db.nextBookingId := hxid
        omega
      · show ((newBooking db u sid s.doctorId now :: db.bookings).map
          (fun x => x.slotId)).Nodup
        rw [List.map_cons]
        refine List.nodup_cons.mpr ⟨?_, hb2⟩
        intro hmem
        rcases List.mem_map.mp hmem with ⟨x, hx, hxs⟩
        exact hnone x hx hxs
      · intro x hx
        rcases List.mem_cons.mp hx with rfl | hx'
        · exact Nat.lt_succ_self db.nextBookingId
        · exact Nat.lt_succ_of_lt (hfr x hx')
      · intro x hx
        rcases List.mem_cons.mp hx with rfl | hx'
        · exact setSlotAvail_exists _ _ _ _ ⟨s, hsmem, hsid⟩
        · exact setSlotAvail_exists _ _ _ _ (hfk x hx')
      · intro t' ht'
        rcases List.mem_map.mp ht' with ⟨t, ht, rfl⟩
        by_cases h0 : t.id = sid
        · have hact : hasActiveOn (newBooking db u sid s.doctorId now :: db.bookings) sid :=
            ⟨newBooking db u sid s.doctorId now, List.mem_cons_self _ _, rfl, rfl⟩
          simp [h0, hact]
        · rw [if_neg (by simp [h0])]
          constructor
          · intro h1 h2
            rcases hasActiveOn_cons _ _ _ |>.mp h2 with h2 | h2
            · exact h0 (h2.1.symm)
            · exact (hav t ht).mp h1 h2
          · intro h1
            exact (hav t ht).mpr (fun hx => h1 ((hasActiveOn_cons _ _ _).mpr (Or.inr hx)))

/-- Shared shape of the two slot-releasing transitions (`confirm_booking`'s
expiry branch and `cancel_booking`'s success branch): update the rows with
id `b.id` to an inactive status and set `b`'s slot available. -/
lemma wf_release (db : DB) (b : Booking) (f : Booking → Booking) (hwf : WF db)
    (hbmem : b ∈ db.bookings)
    (hid : ∀ x, (f x).id = x.id)
    (hsl : ∀ x, (f x).slotId = x.slotId)
    (hne : ∀ x, x.id ≠ b.id → f x = x)
    (hfb : ∀ x, x.id = b.id → isActive (f x) = false) :
    WF { db with
           bookings := db.bookings.map f
           slots := setSlotAvail b.slotId true db.slots } := by
  obtain ⟨hs1, hb1, hb2, hfr, hfk, hav⟩ := hwf
  refine ⟨?_, ?_, ?_, ?_, ?_, ?_⟩
  · show ((setSlotAvail b.slotId true db.slots).map (fun t => t.id)).Nodup
    rw [setSlotAvail_ids]
    exact hs1
  · show ((db.bookings.map f).map (fun x => x.id)).Nodup
    rw [map_proj_eq _ _ _ hid]
    exact hb1
  · show ((db.bookings.map f).map (fun x => x.slotId)).Nodup
    rw [map_proj_eq _ _ _ hsl]
    exact hb2
  · intro x hx
    rcases List.mem_map.mp hx with ⟨y, hy, rfl⟩
    rw [hid]
    exact hfr y hy
  · intro x hx
    rcases List.mem_map.mp hx with ⟨y, hy, rfl⟩
    rw [hsl]
    exact setSlotAvail_exists _ _ _ _ (hfk y hy)
  · exact availIff_release db b f hb1 hb2 hav hbmem hne hfb

/-- The `confirm_booking` success branch preserves well-formedness. -/
lemma wf_confirm_success (bid now : Nat) (db : DB) (b : Booking) (hwf : WF db)
    (hbmem : b ∈ db.bookings) (hbid : b.id = bid)
    (hs : b.status = BookingStatus.PENDING) :
    WF { db with bookings := db.bookings.map (confirmUpd bid now) } := by
  obtain ⟨hs1, hb1, hb2, hfr, hfk, hav⟩ := hwf
  refine ⟨hs1, ?_, ?_, ?_, ?_, ?_⟩
  · show ((db.bookings.map (confirmUpd bid now)).map (fun x => x.id)).Nodup
    rw [map_proj_eq _ _ _ (confirmUpd_id bid now)]
    exact hb1
  · show ((db.bookings.map (confirmUpd bid now)).map (fun x => x.slotId)).Nodup
    rw [map_proj_eq _ _ _ (confirmUpd_slotId bid now)]
    exact hb2
  · intro x hx
    rcases List.mem_map.mp hx with ⟨y, hy, rfl⟩
    rw [confirmUpd_id]
    exact hfr y hy
  · intro x hx
    rcases List.mem_map.mp hx with ⟨y, hy, rfl⟩
    rw [confirmUpd_slotId]
    exact hfk y hy
  · refine availIff_statusSwap db (confirmUpd bid now)
      (fun x _ => confirmUpd_slotId bid now x) ?_ hav
    intro x hx
    by_cases hxb : x.id = bid
    · have hxeq : x = b := List.inj_on_of_nodup_map hb1 hx hbmem (hbid ▸ hxb)
      subst hxeq
      have hconf : confirmUpd bid now x =
          { x with status := .CONFIRMED, confirmedAt := some now, expiresAt := none } := by
        unfold confirmUpd
        rw [if_pos (by simp [hxb])]
      rw [hconf, (isActive_iff x).mpr (Or.inl hs)]
      rfl
    · rw [confirmUpd_of_ne bid now x hxb]

lemma wf_confirm_booking (u bid now : Nat) (db : DB) (hwf : WF db) :
    WF (confirm_booking u bid now db).2 := by
  cases hq : bookingQuery u bid db with
  | none =>
    rw [confirm_not_found u bid now db hq]
    exact hwf
  | some b =>
    obtain ⟨hbmem, hbid, hbu⟩ := bookingQuery_found u bid db b hq
    by_cases hs : b.status = BookingStatus.PENDING
    · cases he : b.expiresAt with
      | some e =>
        by_cases hlt : e < now
        · rw [confirm_expired u bid now db b e hq hs he hlt]
          refine wf_release db b (failUpd bid) hwf hbmem (failUpd_id bid)
            (failUpd_slotId bid) ?_ ?_
          · intro x hxne
            exact failUpd_of_ne bid x (fun hc => hxne (hc.trans hbid.symm))
          · intro x hxeq
            have hcond : (x.id == bid) = true := by simp [hxeq, hbid]
            unfold failUpd
            rw [if_pos hcond]
            rfl
        · rw [confirm_ok_some u bid now db b e hq hs he hlt]
          exact wf_confirm_success bid now db b hwf hbmem hbid hs
      | none =>
        rw [confirm_ok_none u bid now db b hq hs he]
        exact wf_confirm_success bid now db b hwf hbmem hbid hs
    · rw [confirm_invalid u bid now db b hq hs]
      exact hwf

lemma wf_cancel_booking (u bid now : Nat) (db : DB) (hwf : WF db) :
    WF (cancel_booking u bid now db).2 := by
  cases hq : bookingQuery u bid db with
  | none =>
    rw [cancel_not_found u bid now db hq]
    exact hwf
  | some b =>
    obtain ⟨hbmem, hbid, hbu⟩ := bookingQuery_found u bid db b hq
    by_cases hs : b.status = BookingStatus.PENDING ∨ b.status = BookingStatus.CONFIRMED
    · rw [cancel_ok u bid now db b hq hs]
      refine wf_release db b (cancelUpd bid now) hwf hbmem (cancelUpd_id bid now)
        (cancelUpd_slotId bid now) ?_ ?_
      · intro x hxne
        exact cancelUpd_of_ne bid now x (fun hc => hxne (hc.trans hbid.symm))
      · intro x hxeq
        have hcond : (x.id == bid) = true := by simp [hxeq, hbid]
        unfold cancelUpd
        rw [if_pos hcond]
        rfl
    · push_neg at hs
      rw [cancel_invalid u bid now db b hq hs]
      exact hwf

lemma sweepUpd_inactive (now : Nat) (x : Booking) (h : isExpiredPending now x = true) :
    isActive (sweepUpd now x) = false := by
  unfold sweepUpd
  rw [if_pos h]
  rfl

lemma sweepUpd_of_not (now : Nat) (x : Booking) (h : ¬ isExpiredPending now x = true) :
    sweepUpd now x = x := by
  unfold sweepUpd
  rw [if_neg h]

lemma mem_expiredSlotIds (now : Nat) (db : DB) (n : Nat) :
    n ∈ expiredSlotIds now db ↔
      ∃ b ∈ db.bookings, isExpiredPending now b = true ∧ b.slotId = n := by
  unfold expiredSlotIds
  constructor
  · intro h
    rcases List.mem_map.mp h with ⟨b, hb, rfl⟩
    rcases List.mem_filter.mp hb with ⟨hbm, hexp⟩
    exact ⟨b, hbm, hexp, rfl⟩
  · rintro ⟨b, hb, hexp, rfl⟩
    exact List.mem_map.mpr ⟨b, List.mem_filter.mpr ⟨hb, hexp⟩, rfl⟩

lemma wf_sweep (now : Nat) (db : DB) (hwf : WF db) :
    WF (expire_pending_bookings now db).2 := by
  obtain ⟨hs1, hb1, hb2, hfr, hfk, hav⟩ := hwf
  refine ⟨?_, ?_, ?_, ?_, ?_, ?_⟩
  · show ((db.slots.map (fun s =>
        if (expiredSlotIds now db).contains s.id then { s with isAvailable := true }
        else s)).map (fun t => t.id)).Nodup
    rw [map_proj_eq _ _ _ (fun s => by split <;> rfl)]
    exact hs1
  · show ((db.bookings.map (sweepUpd now)).map (fun x => x.id)).Nodup
    rw [map_proj_eq _ _ _ (sweepUpd_id now)]
    exact hb1
  · show ((db.bookings.map (sweepUpd now)).map (fun x => x.slotId)).Nodup
    rw [map_proj_eq _ _ _ (sweepUpd_slotId now)]
    exact hb2
  · intro x hx
    rcases List.mem_map.mp hx with ⟨y, hy, rfl⟩
    rw [sweepUpd_id]
    exact hfr y hy
  · intro x hx
    rcases List.mem_map.mp hx with ⟨y, hy, rfl⟩
    rw [sweepUpd_slotId]
    obtain ⟨t, ht, htid⟩ := hfk y hy
    refine ⟨if (expiredSlotIds now db).contains t.id then { t with isAvailable := true }
      else t, List.mem_map.mpr ⟨t, ht, rfl⟩, ?_⟩
    split <;> exact htid
  · intro t' ht'
    rcases List.mem_map.mp ht' with ⟨t, ht, rfl⟩
    by_cases h0 : (expiredSlotIds now db).contains t.id = true
    · obtain ⟨be, hbe, hbexp, hbsid⟩ :=
        (mem_expiredSlotIds now db t.id).mp ((contains_true_iff _ _).mp h0)
      have hnoact : ¬ hasActiveOn (db.bookings.map (sweepUpd now)) t.id := by
        rintro ⟨x', hx', hxs, hxa⟩
        rcases List.mem_map.mp hx' with ⟨x, hx, rfl⟩
        by_cases hex : isExpiredPending now x = true
        · rw [sweepUpd_inactive now x hex] at hxa
          exact Bool.false_ne_true hxa
        · rw [sweepUpd_of_not now x hex] at hxs hxa
          have hxeq : x = be :=
            List.inj_on_of_nodup_map hb2 hx hbe (by rw [hxs, hbsid])
          rw [hxeq] at hex
          exact hex hbexp
      rw [if_pos h0]
      exact iff_of_true rfl hnoact
    · rw [if_neg h0]
      have htrans : hasActiveOn (db.bookings.map (sweepUpd now)) t.id ↔
          hasActiveOn db.bookings t.id := by
        constructor
        · rintro ⟨x', hx', hxs, hxa⟩
          rcases List.mem_map.mp hx' with ⟨x, hx, rfl⟩
          by_cases hex : isExpiredPending now x = true
          · rw [sweepUpd_inactive now x hex] at hxa
            exact absurd hxa Bool.false_ne_true
          · rw [sweepUpd_of_not now x hex] at hxs hxa
            exact ⟨x, hx, hxs, hxa⟩
        · rintro ⟨x, hx, hxs, hxa⟩
          by_cases hex : isExpiredPending now x = true
          · exact absurd ((contains_true_iff _ _).mpr
              ((mem_expiredSlotIds now db t.id).mpr ⟨x, hx, hex, hxs⟩)) h0
          · exact ⟨sweepUpd now x, List.mem_map.mpr ⟨x, hx, rfl⟩,
              by rw [sweepUpd_of_not now x hex]; exact ⟨hxs, hxa⟩⟩
      exact Iff.trans (hav t ht) (not_congr htrans).symm

lemma wf_applyOp (op : Op) (db : DB) (hwf : WF db) : WF (applyOp op db) := by
  cases op with
  | reserve u s t => exact wf_book_slot u s t db hwf
  | confirm u b t => exact wf_confirm_booking u b t db hwf
  | cancel u b t => exact wf_cancel_booking u b t db hwf
  | sweep t => exact wf_sweep t db hwf

lemma wf_runOps (ops : List Op) (db : DB) (hwf : WF db) : WF (runOps ops db) := by
  induction ops generalizing db with
  | nil => exact hwf
  | cons op rest ih => exact ih _ (wf_applyOp op db hwf)

/-! ### Lookup and row-update helper lemmas for the claim theorems -/

/-- With unique booking ids, the owner-scoped `find?` of
`confirm_booking`/`cancel_booking` locates exactly the member row. -/
lemma find_self (l : List Booking) (b : Booking) (u : Nat)
    (hnd : (l.map (fun x => x.id)).Nodup) (hb : b ∈ l) (hu : b.userId = u) :
    l.find? (fun x => x.id == b.id && x.userId == u) = some b := by
  induction l with
  | nil => cases hb
  | cons a t ih =>
    rw [List.map_cons, List.nodup_cons] at hnd
    rcases List.mem_cons.mp hb with rfl | hbt
    · rw [List.find?_cons_of_pos]
      simp [hu]
    · rw [List.find?_cons_of_neg, ih hnd.2 hbt]
      simp only [Bool.and_eq_true, beq_iff_eq, not_and]
      intro hae _
      exact hnd.1 (hae ▸ List.mem_map_of_mem (fun x => x.id) hbt)

lemma bookingQuery_self (u : Nat) (db : DB) (b : Booking)
    (hnd : (db.bookings.map (fun x => x.id)).Nodup) (hb : b ∈ db.bookings)
    (hu : b.userId = u) : bookingQuery u b.id db = some b :=
  find_self db.bookings b u hnd hb hu

lemma setSlotAvail_avail (sid : Nat) (l : List Slot) (t : Slot)
    (ht : t ∈ setSlotAvail sid true l) (hid : t.id = sid) : t.isAvailable = true := by
  rcases List.mem_map.mp ht with ⟨s0, hs0, rfl⟩
  by_cases h : (s0.id == sid) = true
  · rw [if_pos h]
  · rw [if_neg h] at hid
    exact absurd (by simp [hid]) h

lemma failUpd_status_of_id (bid : Nat) (l : List Booking) (x : Booking)
    (hx : x ∈ l.map (failUpd bid)) (hid : x.id = bid) :
    x.status = BookingStatus.FAILED := by
  rcases List.mem_map.mp hx with ⟨y, hy, rfl⟩
  by_cases h : (y.id == bid) = true
  · unfold failUpd
    rw [if_pos h]
  · rw [failUpd_of_ne bid y (by simpa using h)] at hid ⊢
    exact absurd (by simp [hid]) h

lemma cancelUpd_status_of_id (bid now : Nat) (l : List Booking) (x : Booking)
    (hx : x ∈ l.map (cancelUpd bid now)) (hid : x.id = bid) :
    x.status = BookingStatus.CANCELLED ∧ x.cancelledAt = some now := by
  rcases List.mem_map.mp hx with ⟨y, hy, rfl⟩
  by_cases h : (y.id == bid) = true
  · unfold cancelUpd
    rw [if_pos h]
    exact ⟨rfl, rfl⟩
  · rw [cancelUpd_of_ne bid now y (by simpa using h)] at hid ⊢
    exact absurd (by simp [hid]) h

lemma cancelUpd_userId (bid now : Nat) (x : Booking) :
    (cancelUpd bid now x).userId = x.userId := by
  unfold cancelUpd; split <;> rfl

lemma cancelUpd_self (bid now : Nat) (x : Booking) (h : x.id = bid) :
    cancelUpd bid now x = { x with status := .CANCELLED, cancelledAt := some now } := by
  unfold cancelUpd
  rw [if_pos (by simp [h])]

/-! ### Claim theorems -/

/-- C1: the spec's re-booking scenario FAILS on the code.  User A (10)
reserves slot 1 at `t = 0` (PENDING, expires at 120); the sweeper runs at
`t = 121` and does fail A's reservation and restore the slot to available;
but user B's (20) subsequent reserve of slot 1 returns
`SLOT_ALREADY_BOOKED` instead of succeeding, because the schema's
`unique_active_booking` constraint is `UNIQUE (slot_id)` over ALL booking
rows — A's FAILED row still occupies the slot id, and no operation ever
clears it — so the `INSERT` raises `unique_violation`.  This theorem
evaluates the code on the failing scenario. -/
theorem C1_swept_slot_cannot_be_rebooked :
    isBookOk (book_slot 10 1 0 exDB).1 = true ∧
    (expire_pending_bookings 121 (book_slot 10 1 0 exDB).2).1 = 1 ∧
    ((expire_pending_bookings 121 (book_slot 10 1 0 exDB).2).2.slots.all
      (fun s => s.isAvailable)) = true ∧
    (book_slot 20 1 121 (expire_pending_bookings 121 (book_slot 10 1 0 exDB).2).2).1 =
      .err .SLOT_ALREADY_BOOKED := by
  decide

/-- C2: mutual exclusion.  In every reachable state (any serialized
interleaving `ops` of reserve/confirm/cancel/sweep transactions from a
well-formed store) in which slot `sid` still carries an active (PENDING or
CONFIRMED) reservation, EVERY `reserve` call on `sid` — by any requester,
at any time — fails with `SLOT_UNAVAILABLE` rather than a duplicated
success.  Hence at most one reserve on a slot succeeds until its
reservation leaves the active set. -/
theorem C2_reserve_mutual_exclusion (db0 : DB) (ops : List Op) (u sid t : Nat)
    (hwf : WF db0) (hact : hasActiveOn (runOps ops db0).bookings sid) :
    (book_slot u sid t (runOps ops db0)).1 = .err .SLOT_UNAVAILABLE := by
  obtain ⟨-, -, -, -, -, hav⟩ := wf_runOps ops db0 hwf
  cases hq : slotQuery sid (runOps ops db0) with
  | none => rw [book_slot_unavailable u sid t _ hq]
  | some sl =>
    exfalso
    obtain ⟨hmem, hsid, hsav⟩ := slotQuery_found sid _ sl hq
    exact (hav sl hmem).mp hsav (by rw [hsid]; exact hact)

theorem C2_reserve_mutual_exclusion_witness :
    (book_slot 20 1 50 (runOps [Op.reserve 10 1 0] exDB)).1 =
      .err .SLOT_UNAVAILABLE :=
  C2_reserve_mutual_exclusion exDB [Op.reserve 10 1 0] 20 1 50 (by decide) (by decide)

/-- C3: the availability invariant — a slot is available iff it carries no
PENDING or CONFIRMED reservation — is preserved by each of the four
operations.  The hypothesis is well-formedness, which conjoins this
invariant with the facts the schema itself enforces (unique ids, the
UNIQUE (slot_id) constraint, foreign keys); those are needed for the
induction and are themselves preserved (`wf_applyOp`). -/
theorem C3_availability_invariant_preserved (op : Op) (db : DB) (hwf : WF db) :
    availIff (applyOp op db) :=
  (wf_applyOp op db hwf).2.2.2.2.2

theorem C3_availability_invariant_preserved_witness :
    availIff (applyOp (Op.reserve 10 1 0) exDB) :=
  C3_availability_invariant_preserved (Op.reserve 10 1 0) exDB (by decide)

/-- C4: postcondition of a successful reserve.  If `book_slot` returns a
booking `r`, then `r` is for the given requester and slot, PENDING, with
`expires_at = now + 120` (the 2-minute window), the bookings table is the
old one with exactly `r` prepended, and — in the same atomic step — the
slots table is the old one with the target slot's `available` flag set to
false and nothing else changed (`setSlotAvail`).  The whole transition is
a single transition of the model, so no intermediate state exists. -/
theorem C4_reserve_success_postcondition (u sid now : Nat) (db : DB) (r : Booking)
    (h : (book_slot u sid now db).1 = .ok r) :
    r.userId = u ∧ r.slotId = sid ∧ r.status = BookingStatus.PENDING ∧
    r.expiresAt = some (now + 120) ∧ r.confirmedAt = none ∧ r.cancelledAt = none ∧
    (book_slot u sid now db).2.bookings = r :: db.bookings ∧
    (book_slot u sid now db).2.slots = setSlotAvail sid false db.slots ∧
    (∀ t ∈ (book_slot u sid now db).2.slots, t.id = sid → t.isAvailable = false) ∧
    (book_slot u sid now db).2.doctors = db.doctors := by
  cases hq : slotQuery sid db with
  | none =>
    rw [book_slot_unavailable u sid now db hq] at h
    cases h
  | some s =>
    cases hany : db.bookings.any (fun b => b.slotId == sid) with
    | true =>
      rw [book_slot_conflict u sid now db s hq hany] at h
      cases h
    | false =>
      rw [book_slot_ok u sid now db s hq hany] at h ⊢
      have hr : newBooking db u sid s.doctorId now = r := by
        cases h
        rfl
      subst hr
      refine ⟨rfl, rfl, rfl, rfl, rfl, rfl, rfl, rfl, ?_, rfl⟩
      intro t ht htid
      rcases List.mem_map.mp ht with ⟨s0, hs0, rfl⟩
      by_cases h0 : (s0.id == sid) = true
      · rw [if_pos h0]
      · rw [if_neg h0] at htid ⊢
        exact absurd (by simp [htid]) h0

/-- C5 counterexample: the claim requires `now < expires_at` for a confirm
to succeed, so a confirm at exactly `now = expires_at` must fail.  On the
code it succeeds: A's reservation (id 0) expires at 120, and
`confirm_booking` at `now = 120` returns success, because the expiry test
`expires_at < NOW()` is strict. -/
theorem C5_confirm_at_exact_deadline_succeeds :
    (book_slot 10 1 0 exDB).2.bookings = [newBooking exDB 10 1 1 0] ∧
    (newBooking exDB 10 1 1 0).status = BookingStatus.PENDING ∧
    (newBooking exDB 10 1 1 0).expiresAt = some 120 ∧
    (confirm_booking 10 0 120 (book_slot 10 1 0 exDB).2).1 = .ok := by
  decide

/-- C5 (amended): `confirm(requesterId, reservationId)` succeeds iff the
owner-scoped lookup finds the reservation, it is PENDING, and the deadline
has not strictly passed, i.e. `now ≤ expires_at` (the code's expiry test is
`expires_at < NOW()`, so a confirm at exactly `now = expires_at` succeeds;
a SQL-NULL `expires_at` also confirms).  On success, every row with the
reservation id becomes CONFIRMED with `confirmed_at = now` and `expires_at`
cleared (`confirmUpd`), and nothing else changes. -/
theorem C5_confirm_success_iff (u bid now : Nat) (db : DB) :
    ((confirm_booking u bid now db).1 = .ok ↔
      (∃ b, bookingQuery u bid db = some b ∧ b.status = BookingStatus.PENDING ∧
        (∀ e, b.expiresAt = some e → now ≤ e))) ∧
    ((confirm_booking u bid now db).1 = .ok →
      (confirm_booking u bid now db).2 =
        { db with bookings := db.bookings.map (confirmUpd bid now) }) := by
  cases hq : bookingQuery u bid db with
  | none =>
    rw [confirm_not_found u bid now db hq]
    refine ⟨⟨fun h => ?_, fun hex => ?_⟩, fun h => ?_⟩
    · cases h
    · obtain ⟨b, hb, -⟩ := hex
      cases hb
    · cases h
  | some b =>
    by_cases hs : b.status = BookingStatus.PENDING
    · cases he : b.expiresAt with
      | some e =>
        by_cases hlt : e < now
        · rw [confirm_expired u bid now db b e hq hs he hlt]
          refine ⟨⟨fun h => ?_, fun hex => ?_⟩, fun h => ?_⟩
          · cases h
          · obtain ⟨b', hb', -, hexp⟩ := hex
            injection hb' with hb'
            subst hb'
            exact absurd (hexp e he) (by omega)
          · cases h
        · rw [confirm_ok_some u bid now db b e hq hs he hlt]
          refine ⟨⟨fun _ => ⟨b, rfl, hs, ?_⟩, fun _ => rfl⟩, fun _ => rfl⟩
          intro e2 he2
          rw [he] at he2
          injection he2 with he2
          subst he2
          exact le_of_not_lt hlt
      | none =>
        rw [confirm_ok_none u bid now db b hq hs he]
        refine ⟨⟨fun _ => ⟨b, rfl, hs, ?_⟩, fun _ => rfl⟩, fun _ => rfl⟩
        intro e2 he2
        rw [he] at he2
        cases he2
    · rw [confirm_invalid u bid now db b hq hs]
      refine ⟨⟨fun h => ?_, fun hex => ?_⟩, fun h => ?_⟩
      · cases h
      · obtain ⟨b', hb', hs', -⟩ := hex
        injection hb' with hb'
        subst hb'
        exact absurd hs' hs
      · cases h

theorem C5_confirm_success_iff_witness :
    (confirm_booking 10 0 60 (book_slot 10 1 0 exDB).2).1 = .ok :=
  (C5_confirm_success_iff 10 0 60 (book_slot 10 1 0 exDB).2).1.mpr
    ⟨newBooking exDB 10 1 1 0, by decide, rfl, fun e he => by
      injection he with h
      omega⟩

/-- C6: a PENDING reservation whose `expires_at` is strictly in the past is
never confirmable: the owner's confirm attempt returns `BOOKING_EXPIRED`
(the spec's `EXPIRED`), and that same transaction marks the reservation
FAILED and restores its slot's `available` flag to true. -/
theorem C6_expired_confirm_fails_and_releases (u now e : Nat) (db : DB) (b : Booking)
    (hnd : (db.bookings.map (fun x => x.id)).Nodup)
    (hb : b ∈ db.bookings) (hu : b.userId = u)
    (hs : b.status = BookingStatus.PENDING) (he : b.expiresAt = some e)
    (hlt : e < now) :
    (confirm_booking u b.id now db).1 = .err .BOOKING_EXPIRED ∧
    (∀ x ∈ (confirm_booking u b.id now db).2.bookings, x.id = b.id →
        x.status = BookingStatus.FAILED) ∧
    (∀ t ∈ (confirm_booking u b.id now db).2.slots, t.id = b.slotId →
        t.isAvailable = true) := by
  have hq := bookingQuery_self u db b hnd hb hu
  rw [confirm_expired u b.id now db b e hq hs he hlt]
  refine ⟨rfl, ?_, ?_⟩
  · intro x hx hxid
    exact failUpd_status_of_id b.id db.bookings x hx hxid
  · intro t ht htid
    exact setSlotAvail_avail b.slotId db.slots t ht htid

theorem C6_expired_confirm_fails_and_releases_witness :
    (confirm_booking 10 0 121 (book_slot 10 1 0 exDB).2).1 = .err .BOOKING_EXPIRED :=
  (C6_expired_confirm_fails_and_releases 10 121 120 (book_slot 10 1 0 exDB).2
    (newBooking exDB 10 1 1 0) (by decide) (by decide) (by decide) (by decide)
    (by decide) (by decide)).1

theorem C4_reserve_success_postcondition_witness :
    (book_slot 10 1 0 exDB).2.bookings =
      newBooking exDB 10 1 1 0 :: exDB.bookings ∧
    (book_slot 10 1 0 exDB).2.slots = setSlotAvail 1 false exDB.slots :=
  ⟨(C4_reserve_success_postcondition 10 1 0 exDB (newBooking exDB 10 1 1 0)
      (by decide)).2.2.2.2.2.2.1,
   (C4_reserve_success_postcondition 10 1 0 exDB (newBooking exDB 10 1 1 0)
      (by decide)).2.2.2.2.2.2.2.1⟩

/-- C7 counterexample: starting from the well-formed store `exDB`, user A
reserves slot 1 at `t = 0` (PENDING, `expires_at = 120`) and the sweeper
runs at `t = 121`.  The resulting reservation row is FAILED yet still
carries `expires_at = 120`: the sweep's UPDATE (like the cancel and
confirm-expiry UPDATEs) sets only the status and never clears
`expires_at`, refuting the claim that no FAILED reservation carries an
`expires_at` value. -/
theorem C7_failed_reservation_keeps_expires_at :
    WF exDB ∧
    (expire_pending_bookings 121 (book_slot 10 1 0 exDB).2).2.bookings =
      [{ id := 0, userId := 10, slotId := 1, doctorId := 1,
         status := BookingStatus.FAILED, expiresAt := some 120,
         confirmedAt := none, cancelledAt := none }] := by
  decide

/-- C7 (amended): `expires_at` is cleared on confirmation, so no CONFIRMED
reservation ever carries an `expires_at` value, and this is preserved by
every operation.  The claim's stronger version — that every transition out
of PENDING clears `expires_at` — is false: the FAILED/CANCELLED updates
leave `expires_at` in place (see the counterexample). -/
theorem C7_confirmed_has_no_expires_at (op : Op) (db : DB)
    (h : noConfirmedExpiry db) : noConfirmedExpiry (applyOp op db) := by
  have hmap : ∀ (f : Booking → Booking),
      (∀ x ∈ db.bookings, (f x).status = BookingStatus.CONFIRMED →
        (f x).expiresAt = none) →
      ∀ b ∈ db.bookings.map f, b.status = BookingStatus.CONFIRMED →
        b.expiresAt = none := by
    intro f hf b hbm hc
    rcases List.mem_map.mp hbm with ⟨x, hx, rfl⟩
    exact hf x hx hc
  cases op with
  | reserve u sid t =>
    show noConfirmedExpiry (book_slot u sid t db).2
    cases hq : slotQuery sid db with
    | none =>
      rw [book_slot_unavailable u sid t db hq]
      exact h
    | some s =>
      cases hany : db.bookings.any (fun b => b.slotId == sid) with
      | true =>
        rw [book_slot_conflict u sid t db s hq hany]
        exact h
      | false =>
        rw [book_slot_ok u sid t db s hq hany]
        intro b hbm hc
        rcases List.mem_cons.mp hbm with rfl | hbm'
        · cases hc
        · exact h b hbm' hc
  | confirm u bid t =>
    show noConfirmedExpiry (confirm_booking u bid t db).2
    cases hq : bookingQuery u bid db with
    | none =>
      rw [confirm_not_found u bid t db hq]
      exact h
    | some b =>
      by_cases hs : b.status = BookingStatus.PENDING
      · cases he : b.expiresAt with
        | some e =>
          by_cases hlt : e < t
          · rw [confirm_expired u bid t db b e hq hs he hlt]
            refine hmap (failUpd bid) ?_
            intro x hx
            unfold failUpd
            by_cases hxb : (x.id == bid) = true
            · rw [if_pos hxb]
              intro hc
              cases hc
            · rw [if_neg hxb]
              exact h x hx
          · rw [confirm_ok_some u bid t db b e hq hs he hlt]
            refine hmap (confirmUpd bid t) ?_
            intro x hx
            unfold confirmUpd
            by_cases hxb : (x.id == bid) = true
            · rw [if_pos hxb]
              intro _
              rfl
            · rw [if_neg hxb]
              exact h x hx
        | none =>
          rw [confirm_ok_none u bid t db b hq hs he]
          refine hmap (confirmUpd bid t) ?_
          intro x hx
          unfold confirmUpd
          by_cases hxb : (x.id == bid) = true
          · rw [if_pos hxb]
            intro _
            rfl
          · rw [if_neg hxb]
            exact h x hx
      · rw [confirm_invalid u bid t db b hq hs]
        exact h
  | cancel u bid t =>
    show noConfirmedExpiry (cancel_booking u bid t db).2
    cases hq : bookingQuery u bid db with
    | none =>
      rw [cancel_not_found u bid t db hq]
      exact h
    | some b =>
      by_cases hs : b.status = BookingStatus.PENDING ∨ b.status = BookingStatus.CONFIRMED
      · rw [cancel_ok u bid t db b hq hs]
        refine hmap (cancelUpd bid t) ?_
        intro x hx
        unfold cancelUpd
        by_cases hxb : (x.id == bid) = true
        · rw [if_pos hxb]
          intro hc
          cases hc
        · rw [if_neg hxb]
          exact h x hx
      · push_neg at hs
        rw [cancel_invalid u bid t db b hq hs]
        exact h
  | sweep t =>
    show noConfirmedExpiry (expire_pending_bookings t db).2
    refine hmap (sweepUpd t) ?_
    intro x hx
    unfold sweepUpd
    by_cases hex : isExpiredPending t x = true
    · rw [if_pos hex]
      intro hc
      cases hc
    · rw [if_neg hex]
      exact h x hx

theorem C7_confirmed_has_no_expires_at_witness :
    noConfirmedExpiry (applyOp (Op.confirm 10 0 60) (book_slot 10 1 0 exDB).2) :=
  C7_confirmed_has_no_expires_at (Op.confirm 10 0 60) (book_slot 10 1 0 exDB).2
    (by decide)

/-- C8: cancelling a CONFIRMED reservation succeeds, marks every row with
its id CANCELLED with `cancelled_at = now`, and restores its slot to
available; a second cancel of the same reservation (at any later time)
returns `INVALID_STATUS` (the spec's `INVALID_STATE`) and leaves the state
literally unchanged — the slot is released exactly once. -/
theorem C8_cancel_releases_slot_exactly_once (u now now2 : Nat) (db : DB) (b : Booking)
    (hnd : (db.bookings.map (fun x => x.id)).Nodup)
    (hb : b ∈ db.bookings) (hu : b.userId = u)
    (hs : b.status = BookingStatus.CONFIRMED) :
    (cancel_booking u b.id now db).1 = .ok ∧
    (∀ x ∈ (cancel_booking u b.id now db).2.bookings, x.id = b.id →
        x.status = BookingStatus.CANCELLED ∧ x.cancelledAt = some now) ∧
    (∀ t ∈ (cancel_booking u b.id now db).2.slots, t.id = b.slotId →
        t.isAvailable = true) ∧
    cancel_booking u b.id now2 (cancel_booking u b.id now db).2 =
      (.err .INVALID_STATUS, (cancel_booking u b.id now db).2) := by
  have hq := bookingQuery_self u db b hnd hb hu
  rw [cancel_ok u b.id now db b hq (Or.inr hs)]
  refine ⟨rfl, ?_, ?_, ?_⟩
  · intro x hx hxid
    exact cancelUpd_status_of_id b.id now db.bookings x hx hxid
  · intro t ht htid
    exact setSlotAvail_avail b.slotId db.slots t ht htid
  · have hnd1 : (({ db with
        bookings := db.bookings.map (cancelUpd b.id now)
        slots := setSlotAvail b.slotId true db.slots } : DB).bookings.map
          (fun x => x.id)).Nodup := by
      show ((db.bookings.map (cancelUpd b.id now)).map (fun x => x.id)).Nodup
      rw [map_proj_eq _ _ _ (cancelUpd_id b.id now)]
      exact hnd
    have hb1 : cancelUpd b.id now b ∈ ({ db with
        bookings := db.bookings.map (cancelUpd b.id now)
        slots := setSlotAvail b.slotId true db.slots } : DB).bookings :=
      List.mem_map.mpr ⟨b, hb, rfl⟩
    have hu1 : (cancelUpd b.id now b).userId = u := by
      rw [cancelUpd_userId]
      exact hu
    have hq1 := bookingQuery_self u { db with
        bookings := db.bookings.map (cancelUpd b.id now)
        slots := setSlotAvail b.slotId true db.slots } (cancelUpd b.id now b) hnd1 hb1 hu1
    rw [cancelUpd_id b.id now b] at hq1
    refine cancel_invalid u b.id now2 _ (cancelUpd b.id now b) hq1 ?_
    rw [cancelUpd_self b.id now b rfl]
    constructor
    · intro hc
      cases hc
    · intro hc
      cases hc

theorem C8_cancel_releases_slot_exactly_once_witness :
    (cancel_booking 10 0 90 (confirm_booking 10 0 60 (book_slot 10 1 0 exDB).2).2).1 =
      CancelOutcome.ok :=
  (C8_cancel_releases_slot_exactly_once 10 90 95
    (confirm_booking 10 0 60 (book_slot 10 1 0 exDB).2).2
    { id := 0, userId := 10, slotId := 1, doctorId := 1,
      status := BookingStatus.CONFIRMED, expiresAt := none,
      confirmedAt := some 60, cancelledAt := none }
    (by decide) (by decide) (by decide) (by decide)).1

/-- After a sweep at time `now`, no reservation is still expired-PENDING at
the same instant. -/
lemma no_expired_after_sweep (now : Nat) (db : DB) :
    ∀ b ∈ (expire_pending_bookings now db).2.bookings,
      isExpiredPending now b = false := by
  intro b hbm
  rcases List.mem_map.mp hbm with ⟨x, hx, rfl⟩
  unfold sweepUpd
  by_cases hex : isExpiredPending now x = true
  · rw [if_pos hex]
    rfl
  · rw [if_neg hex]
    exact Bool.eq_false_iff.mpr hex

/-- C9: the sweep is idempotent.  Running `expire_pending_bookings` and
immediately running it again (same clock, no intervening operations) makes
the second invocation return count 0 and leave the state — every booking
status and every slot flag — literally unchanged. -/
theorem C9_sweep_idempotent (now : Nat) (db : DB) :
    expire_pending_bookings now (expire_pending_bookings now db).2 =
      (0, (expire_pending_bookings now db).2) := by
  have hfalse := no_expired_after_sweep now db
  have hids : expiredSlotIds now (expire_pending_bookings now db).2 = [] := by
    unfold expiredSlotIds
    rw [List.filter_eq_nil_iff.mpr ?hcond]
    · rfl
    case hcond =>
      intro b hbm hex
      rw [hfalse b hbm] at hex
      exact Bool.false_ne_true hex
  have hbook : (expire_pending_bookings now db).2.bookings.map (sweepUpd now) =
      (expire_pending_bookings now db).2.bookings := by
    refine (List.map_congr_left ?_).trans
      (List.map_id' (expire_pending_bookings now db).2.bookings)
    intro b hbm
    exact sweepUpd_of_not now b (by rw [hfalse b hbm]; exact Bool.false_ne_true)
  have hslots : (expire_pending_bookings now db).2.slots.map (fun s =>
      if (expiredSlotIds now (expire_pending_bookings now db).2).contains s.id then
        { s with isAvailable := true } else s) =
      (expire_pending_bookings now db).2.slots := by
    refine (List.map_congr_left ?_).trans
      (List.map_id' (expire_pending_bookings now db).2.slots)
    intro s _
    rw [hids]
    rfl
  have hcount : ((expire_pending_bookings now db).2.slots.filter (fun s =>
      (expiredSlotIds now (expire_pending_bookings now db).2).contains s.id)).length
        = 0 := by
    rw [hids]
    rw [List.filter_eq_nil_iff.mpr ?hnone]
    · rfl
    case hnone =>
      intro s _ hc
      exact Bool.false_ne_true hc
  have hexp : expire_pending_bookings now (expire_pending_bookings now db).2 =
      (((expire_pending_bookings now db).2.slots.filter (fun s =>
          (expiredSlotIds now (expire_pending_bookings now db).2).contains s.id)).length,
        { (expire_pending_bookings now db).2 with
            bookings := (expire_pending_bookings now db).2.bookings.map (sweepUpd now)
            slots := (expire_pending_bookings now db).2.slots.map (fun s =>
              if (expiredSlotIds now (expire_pending_bookings now db).2).contains s.id
              then { s with isAvailable := true } else s) }) := rfl
  rw [hexp, hcount, hbook, hslots]

/-- C10: atomicity of reserve on failure.  Whatever failure `book_slot`
returns — `SLOT_UNAVAILABLE` from the NOT FOUND branch, or
`SLOT_ALREADY_BOOKED` when the insert violates the uniqueness constraint
after the row was found (the exception handler rolls the transaction back;
`SLOT_LOCKED` is in the same rollback-handling exception block) — the
returned state is exactly the input state: no booking row and no slot-flag
change survives. -/
theorem C10_reserve_failure_leaves_state_unchanged (u sid now : Nat) (db : DB)
    (e : BookErr) (h : (book_slot u sid now db).1 = .err e) :
    (book_slot u sid now db).2 = db := by
  cases hq : slotQuery sid db with
  | none => rw [book_slot_unavailable u sid now db hq]
  | some s =>
    cases hany : db.bookings.any (fun b => b.slotId == sid) with
    | true => rw [book_slot_conflict u sid now db s hq hany]
    | false =>
      rw [book_slot_ok u sid now db s hq hany] at h
      cases h

theorem C10_reserve_failure_leaves_state_unchanged_witness :
    (book_slot 20 1 50 (book_slot 10 1 0 exDB).2).2 = (book_slot 10 1 0 exDB).2 :=
  C10_reserve_failure_leaves_state_unchanged 20 1 50 (book_slot 10 1 0 exDB).2
    BookErr.SLOT_UNAVAILABLE (by decide)

end Medbook
